import Mathlib

/-!
Shallow embedding of `hooks/ceilometer_hooks.py` (charm-ceilometer).

The charm is an event-driven reconciler: each invocation dispatches one hook
name to a handler; handlers read relation data, rewrite configuration files
and publish relation settings.  We embed each handler as a pure function from
an explicit environment (the values the handler reads through `config`,
`relation_get`, `CONFIGS.complete_contexts`, network helpers, ...) to the
ordered trace of side effects it performs, together with the resulting local
state where a handler mutates it.  External library helpers (charmhelpers)
appear as fields of the environment; helpers from `ceilometer_utils` that are
not part of the provided sources are modelled from the spec and marked so.
-/

namespace Ceilometer

/-- A value written through `relation_set`: plain strings, string-valued
dictionaries (Python `dict`, kept as an insertion-ordered association list)
and string lists. -/
inductive RVal where
  | str (s : String)
  | dict (m : List (String × String))
  | list (l : List String)
deriving Repr, DecidableEq

/-- One observable side effect of a handler, in execution order.
`checkCall` is `subprocess.check_call` (raises on failure), `call` is
`subprocess.call` (ignores the exit status). -/
inductive Effect where
  | log (msg : String)
  | writeAll
  | relationSet (settings : List (String × RVal))
  | checkCall (cmd : List String)
  | call (cmd : List String)
  | peerStoreEff (key : String) (val : String)
  | setSecretEff (val : String)
  | installOcf
  | assessStatusEff
deriving Repr, DecidableEq

/-- A Python exception escaping a handler.  `calledProcessError` comes from
`subprocess.check_call`; `other` stands for any further exception class. -/
inductive Exn where
  | calledProcessError (cmd : List String)
  | other (msg : String)
deriving Repr, DecidableEq

/-- Insertion-ordered association list standing for a Python `dict`:
assignment `d[k] = v` overwrites in place when the key exists and appends
otherwise. -/
def alistSet {α : Type} (l : List (String × α)) (k : String) (v : α) : List (String × α) :=
  if l.any (fun p => p.1 = k) then
    l.map (fun p => if p.1 = k then (k, v) else p)
  else
    l ++ [(k, v)]

/-- Lookup in an association list (Python `d[k]` / `d.get(k)`). -/
def alistGet {α : Type} (l : List (String × α)) (k : String) : Option α :=
  (l.find? (fun p => p.1 = k)).map (fun p => p.2)

/-- Python truthiness of an optional string (`if x:`): `None` and the empty
string are falsy. -/
def truthy : Option String → Bool
  | none => false
  | some s => s ≠ ""

/-- Python `str.strip()` with no argument: remove leading and trailing
whitespace. -/
def pyStrip (s : String) : String :=
  ⟨((s.data.dropWhile Char.isWhitespace).reverse.dropWhile Char.isWhitespace).reverse⟩

/-- Helper of `pySplit`: `acc` holds the current word reversed. -/
def pySplitAux : List Char → List Char → List String
  | acc, [] => if acc = [] then [] else [⟨acc.reverse⟩]
  | acc, c :: rest =>
      if c.isWhitespace then
        (if acc = [] then [] else [⟨acc.reverse⟩]) ++ pySplitAux [] rest
      else pySplitAux (c :: acc) rest

/-- Python `str.split()` with no argument: split on runs of whitespace and
drop empty pieces. -/
def pySplit (s : String) : List String :=
  pySplitAux [] s.data

/-- Helper of `pyReplace`, fueled by the string length (each step consumes at
least one character when `pat` is non-empty). -/
def pyReplaceAux (pat rep : List Char) : Nat → List Char → List Char
  | 0, xs => xs
  | _ + 1, [] => []
  | fuel + 1, c :: rest =>
      if pat ≠ [] ∧ pat.isPrefixOf (c :: rest) then
        rep ++ pyReplaceAux pat rep fuel ((c :: rest).drop pat.length)
      else
        c :: pyReplaceAux pat rep fuel rest

/-- Python `str.replace(pat, rep)` for a non-empty `pat`: replace every
non-overlapping occurrence, scanning left to right. -/
def pyReplace (s pat rep : String) : String :=
  ⟨pyReplaceAux pat.data rep.data s.data.length s.data⟩

/-! ## `configure_https` (lines 165-183) -/

/-- Environment read by `configure_https`: the freshly computed
`CONFIGS.complete_contexts()`, the pause flag, and an oracle telling which
external commands exit non-zero. -/
structure HttpsEnv where
  completeContexts : List String
  paused : Bool
  cmdFails : List String → Bool

def a2ensiteCmd : List String := ["a2ensite", "openstack_https_frontend"]

def a2dissiteCmd : List String := ["a2dissite", "openstack_https_frontend"]

def apacheReloadCmd : List String := ["service", "apache2", "reload"]

def apacheRestartCmd : List String := ["service", "apache2", "restart"]

/-- `configure_https`: write all configs, toggle the https frontend site by
the completeness of the `https` context, then (when not paused) try a
graceful `service apache2 reload` via `check_call` and, if that raises
`CalledProcessError`, fall back to `subprocess.call(['service', 'apache2',
'restart'])`, whose exit status is ignored.  Returns the effect trace and the
exception propagating out, if any. -/
def configure_https (env : HttpsEnv) : List Effect × Option Exn :=
  let toggle := if "https" ∈ env.completeContexts then a2ensiteCmd else a2dissiteCmd
  let pre := [Effect.writeAll, Effect.checkCall toggle]
  if env.cmdFails toggle then
    (pre, some (Exn.calledProcessError toggle))
  else if env.paused then
    (pre, none)
  else if env.cmdFails apacheReloadCmd then
    (pre ++ [Effect.checkCall apacheReloadCmd, Effect.call apacheRestartCmd], none)
  else
    (pre ++ [Effect.checkCall apacheReloadCmd], none)

/-! ## `amqp_departed` (lines 156-162) -/

/-- `amqp_departed`: if the `amqp` context is incomplete, log and return;
otherwise `CONFIGS.write_all()`. -/
def amqp_departed (completeContexts : List String) : List Effect :=
  if "amqp" ∉ completeContexts then
    [Effect.log "amqp relation incomplete. Peer not ready?"]
  else
    [Effect.writeAll]

/-! ## The `__main__` block (lines 452-457) -/

/-- Outcome of `hooks.execute(sys.argv)`: the handler ran to completion, the
hook name was unregistered (raising `UnregisteredHookError`), or a registered
handler raised some other exception. -/
inductive ExecResult where
  | ok
  | unregisteredHook (name : String)
  | handlerExn (e : Exn)
deriving Repr, DecidableEq

/-- The `__main__` block: `try: hooks.execute(sys.argv) except
UnregisteredHookError as e: log(...)` followed by `assess_status(CONFIGS)`.
Only `UnregisteredHookError` is caught; any other exception propagates at
once, skipping the `assess_status` line.  Returns the trace of the block and
the exception leaving the process, if any. -/
def mainBlock (r : ExecResult) : List Effect × Option Exn :=
  match r with
  | ExecResult.ok => ([Effect.assessStatusEff], none)
  | ExecResult.unregisteredHook n =>
      ([Effect.log ("Unknown hook " ++ n ++ " - skipping."), Effect.assessStatusEff], none)
  | ExecResult.handlerExn e => ([], some e)

/-- Process exit code: 0 when nothing escapes the `__main__` block, non-zero
(the Python interpreter's 1 for an uncaught exception) otherwise. -/
def exitCode (r : ExecResult) : Nat :=
  match (mainBlock r).2 with
  | none => 0
  | some _ => 1

/-! ## Shared-secret handlers: `cluster_joined`, `cluster_changed`
(lines 253-288) -/

/-- Local secret file state of one unit. -/
structure SecretState where
  localSecret : Option String
deriving Repr, DecidableEq

/-- Modelled from the spec: `get_shared_secret` from `ceilometer_utils` (not
among the provided sources) returns the locally stored secret, generating and
storing a fresh random one (`fresh`) when none exists yet ("generated once
(if leader and absent), stored ...", spec 3/4.4). -/
def get_shared_secret (fresh : String) (s : SecretState) : String × SecretState :=
  match s.localSecret with
  | some v => (v, s)
  | none => (fresh, ⟨some fresh⟩)

/-- Modelled from the spec: `set_shared_secret` from `ceilometer_utils` (not
among the provided sources) overwrites the locally stored secret ("written
into local files ... when divergent", spec 3). -/
def set_shared_secret (v : String) (_ : SecretState) : SecretState :=
  ⟨some v⟩

/-- `cluster_changed` (also bound to `cluster-relation-departed`): read the
peer-stored `shared_secret`; when absent or blank, log and wait; when present
and different from the local copy, overwrite the local copy; then
`CONFIGS.write_all()`.  `peerSecret` is `peer_retrieve('shared_secret')` and
`fresh` feeds the (spec-modelled) lazy generation inside
`get_shared_secret`. -/
def cluster_changed (peerSecret : Option String) (fresh : String) (s : SecretState) :
    SecretState × List Effect :=
  match peerSecret with
  | none => (s, [Effect.log "waiting for shared secret to be provided by leader", Effect.writeAll])
  | some v =>
      if pyStrip v = "" then
        (s, [Effect.log "waiting for shared secret to be provided by leader", Effect.writeAll])
      else
        let (mine, s1) := get_shared_secret fresh s
        if v ≠ mine then
          (set_shared_secret v s1, [Effect.setSecretEff v, Effect.writeAll])
        else
          (s1, [Effect.writeAll])

/-- Environment of `cluster_joined`: leadership and the relation addresses
resolved through charmhelpers. -/
structure ClusterEnv where
  isLeader : Bool
  addressOf : String → Option String
  clusterIp : String

/-- `ADDRESS_TYPES` from charmhelpers (`admin`, `internal`, `public`). -/
def ADDRESS_TYPES : List String := ["admin", "internal", "public"]

/-- The address settings dictionary built by `cluster_joined`. -/
def clusterSettings (env : ClusterEnv) : List (String × RVal) :=
  (ADDRESS_TYPES.foldl
    (fun acc t =>
      match env.addressOf t with
      | some a => acc ++ [(t ++ "-address", RVal.str a)]
      | none => acc) [])
  ++ [("private-address", RVal.str env.clusterIp)]

/-- `cluster_joined`: install the OCF file, then — when this unit is the
elected leader — `peer_store('shared_secret', get_shared_secret())`; then
`CONFIGS.write_all()` and publish the unit addresses.  Returns the updated
local secret state, the peer-stored `shared_secret` value after the handler
(`peerStored` being its value before), and the effect trace. -/
def cluster_joined (env : ClusterEnv) (fresh : String) (s : SecretState)
    (peerStored : Option String) :
    SecretState × Option String × List Effect :=
  if env.isLeader then
    let (v, s1) := get_shared_secret fresh s
    (s1, some v,
      [Effect.installOcf, Effect.peerStoreEff "shared_secret" v, Effect.writeAll,
       Effect.relationSet (clusterSettings env)])
  else
    (s, peerStored,
      [Effect.installOcf, Effect.writeAll, Effect.relationSet (clusterSettings env)])

/-! ## `ha_joined` (lines 291-364) -/

def LEGACY_RES_KEY : String := "res_ceilometer_agent_central"

def NEW_RES_KEY : String := "res_ceilometer_polling"

/-- The ordered OpenStack release names known to charmhelpers'
`CompareOpenStackReleases` (Ubuntu OpenStack series order). -/
def osReleaseNames : List String :=
  ["diablo", "essex", "folsom", "grizzly", "havana", "icehouse", "juno", "kilo",
   "liberty", "mitaka", "newton", "ocata", "pike", "queens", "rocky", "stein",
   "train", "ussuri", "victoria", "wallaby", "xena", "yoga"]

/-- Position of a release name in the series order. -/
def releaseIndex (r : String) : Nat :=
  (osReleaseNames.indexOf r)

/-- `CompareOpenStackReleases(os_release('ceilometer-common')) >= 'liberty'`:
release ordinals compare by series position. -/
def geLiberty (r : String) : Bool :=
  releaseIndex "liberty" ≤ releaseIndex r

/-- Environment read by `ha_joined`: the validated hacluster config (vip
string, bindiface, mcastport), the installed release, DNS-HA mode, the
network helpers, the amqp relation topology, and the external DNS-HA
parameter builder. -/
structure HAEnv where
  release : String
  dnsHa : Bool
  vip : String
  haBindiface : String
  haMcastport : String
  ifaceForAddress : String → Option String
  netmaskForAddress : String → Option String
  amqpRelIds : List String
  relatedUnits : String → List String
  sslPortOf : String → String → Option String
  dnsTransform : List (String × String) → List (String × String) →
    (List (String × String)) × (List (String × String))

/-- The generation-dependent service resource key (`RES_KEY`). -/
def resKeyFor (release : String) : String :=
  if geLiberty release then NEW_RES_KEY else LEGACY_RES_KEY

/-- `delete_resources` accumulated before publication: the legacy key is
marked for deletion exactly on liberty or later. -/
def deleteResourcesFor (release : String) : List String :=
  if geLiberty release then [LEGACY_RES_KEY] else []

/-- `RES_KEY.replace('res_', '').replace('_', '-')`. -/
def ocfNameFor (release : String) : String :=
  pyReplace (pyReplace (resKeyFor release) "res_" "") "_" "-"

/-- The initial `resources` dict of `ha_joined`. -/
def baseResources (release : String) : List (String × String) :=
  [("res_ceilometer_haproxy", "lsb:haproxy"),
   (resKeyFor release, "ocf:openstack:" ++ ocfNameFor release)]

/-- The initial `resource_params` dict of `ha_joined`. -/
def baseResourceParams (release : String) : List (String × String) :=
  [("res_ceilometer_haproxy", "op monitor interval=\"5s\""),
   (resKeyFor release, "op monitor interval=\"30s\"")]

/-- The value left in `amqp_ssl_port` by the nested loop over all amqp
relations and their units: each `relation_get('ssl_port', unit, rel_id)`
overwrites the variable, so the last read wins (possibly `None`). -/
def lastSslPort (env : HAEnv) : Option String :=
  (env.amqpRelIds.flatMap
    (fun rid => (env.relatedUnits rid).map (fun u => env.sslPortOf rid u))).foldl
    (fun _ x => x) none

/-- `resource_params` after the conditional amqp ssl-port override: when the
last-read `ssl_port` is truthy, the service resource's params are replaced by
a string embedding that port. -/
def paramsAfterAmqp (env : HAEnv) : List (String × String) :=
  match lastSslPort env with
  | some p =>
      if p ≠ "" then
        alistSet (baseResourceParams env.release) (resKeyFor env.release)
          ("params amqp_server_port=\"" ++ p ++ "\" op monitor interval=\"30s\"")
      else baseResourceParams env.release
  | none => baseResourceParams env.release

/-- `cluster_config['vip'].split()`: Python `str.split()` splits on runs of
whitespace and drops empty pieces. -/
def splitVips (env : HAEnv) : List String :=
  pySplit env.vip

/-- `'res_ceilometer_{}_vip'.format(iface)`. -/
def vipKey (iface : String) : String :=
  "res_ceilometer_" ++ iface ++ "_vip"

/-- Python `'{}'.format(x)` of an optional netmask: `None` prints as
`"None"`. -/
def optFmt : Option String → String
  | some s => s
  | none => "None"

/-- The IPaddr2 parameter string built for one virtual IP on interface
`iface`. -/
def vipParamsStr (env : HAEnv) (vip iface : String) : String :=
  "params ip=\"" ++ vip ++ "\" cidr_netmask=\"" ++ optFmt (env.netmaskForAddress vip)
    ++ "\" nic=\"" ++ iface ++ "\""

/-- One iteration of the virtual-IP loop: skip the vip silently when no local
interface hosts it, otherwise add the IPaddr2 resource, its params, and
append the key to the group. -/
def vipStep (env : HAEnv)
    (acc : List (String × String) × List (String × String) × List String)
    (vip : String) :
    List (String × String) × List (String × String) × List String :=
  match env.ifaceForAddress vip with
  | none => acc
  | some iface =>
      (alistSet acc.1 (vipKey iface) "ocf:heartbeat:IPaddr2",
       alistSet acc.2.1 (vipKey iface) (vipParamsStr env vip iface),
       acc.2.2 ++ [vipKey iface])

/-- The whole virtual-IP loop over `cluster_config['vip'].split()`. -/
def vipLoop (env : HAEnv) :
    List (String × String) × List (String × String) × List String :=
  (splitVips env).foldl (vipStep env) (baseResources env.release, paramsAfterAmqp env, [])

/-- The `resources`/`resource_params` pair that reaches the final
`relation_set`: the DNS-HA builder's output in DNS-HA mode, the vip loop's
output otherwise. -/
def finalMaps (env : HAEnv) : List (String × String) × List (String × String) :=
  if env.dnsHa then
    env.dnsTransform (baseResources env.release) (paramsAfterAmqp env)
  else
    ((vipLoop env).1, (vipLoop env).2.1)

/-- The settings dictionary of the final `relation_set` of `ha_joined`, in
keyword order. -/
def finalSettings (env : HAEnv) : List (String × RVal) :=
  [("init_services", RVal.dict [("res_ceilometer_haproxy", "haproxy")]),
   ("corosync_bindiface", RVal.str env.haBindiface),
   ("corosync_mcastport", RVal.str env.haMcastport),
   ("resources", RVal.dict (finalMaps env).1),
   ("resource_params", RVal.dict (finalMaps env).2),
   ("delete_resources", RVal.list (deleteResourcesFor env.release)),
   ("clones", RVal.dict [("cl_ceilometer_haproxy", "res_ceilometer_haproxy")])]

/-- `' '.join(vip_group)`. -/
def joinSpace (l : List String) : String :=
  String.intercalate " " l

/-- The separate `relation_set(groups=...)` issued inside the non-DNS branch
when at least one virtual IP resolved. -/
def groupsEffect (env : HAEnv) : Effect :=
  Effect.relationSet [("groups", RVal.dict [("grp_ceilometer_vips", joinSpace (vipLoop env).2.2)])]

/-- `ha_joined`: build the resource maps, optionally publish the vip group in
its own `relation_set`, and finish with the single `relation_set` carrying
init services, corosync settings, resources, params, deletions and clones. -/
def ha_joined (env : HAEnv) : List Effect :=
  if env.dnsHa then
    [Effect.relationSet (finalSettings env)]
  else
    (if 1 ≤ (vipLoop env).2.2.length then [groupsEffect env] else [])
    ++ [Effect.relationSet (finalSettings env)]

/-! ## Relation-store frame semantics -/

/-- The remote side's view of this unit's relation data: latest value per
key.  A `relationSet` effect overwrites exactly the keys it carries. -/
def applyEffect (store : List (String × RVal)) : Effect → List (String × RVal)
  | Effect.relationSet settings =>
      settings.foldl (fun st kv => alistSet st kv.1 kv.2) store
  | _ => store

/-- Replay a whole effect trace against the relation store. -/
def applyTrace (store : List (String × RVal)) (tr : List Effect) : List (String × RVal) :=
  tr.foldl applyEffect store

/-- Does the effect's settings dictionary carry the key `k`? -/
def settingsHasKey (e : Effect) (k : String) : Bool :=
  match e with
  | Effect.relationSet settings => settings.any (fun p => p.1 = k)
  | _ => false

/-- Is there one single `relation_set` write in the trace carrying every key
of `keys`? -/
def oneWriteHasAll (tr : List Effect) (keys : List String) : Bool :=
  tr.any (fun e => keys.all (fun k => settingsHasKey e k))

/-! ## Association-list and vip-loop lemmas -/

theorem find?_setmap {α : Type} (k k0 : String) (v : α) (h : k ≠ k0) :
    ∀ l : List (String × α),
      List.find? (fun p => decide (p.1 = k0)) (l.map (fun p => if p.1 = k then (k, v) else p)) =
        List.find? (fun p => decide (p.1 = k0)) l := by
  intro l
  induction l with
  | nil => rfl
  | cons a t ih =>
      simp only [List.map_cons, List.find?_cons]
      by_cases ha : a.1 = k
      · have e1 : (decide ((k, v).1 = k0)) = false := by simp [h]
        have e2 : (decide (a.1 = k0)) = false := by simp [ha, h]
        simp only [if_pos ha, e1, e2, ih]
      · simp only [if_neg ha]
        cases hd : decide (a.1 = k0)
        · simp only [ih]
        · rfl

theorem alistGet_alistSet_ne {α : Type} (l : List (String × α)) (k : String) (v : α)
    (k0 : String) (h : k ≠ k0) : alistGet (alistSet l k v) k0 = alistGet l k0 := by
  unfold alistSet
  split
  · unfold alistGet
    rw [find?_setmap k k0 v h l]
  · simp only [alistGet, List.find?_append]
    have e : List.find? (fun p => decide (p.1 = k0)) [(k, v)] = none := by
      simp [List.find?, h]
    rw [e]
    cases List.find? (fun p => decide (p.1 = k0)) l <;> rfl

theorem find?_setmap_self {α : Type} (k : String) (v : α) :
    ∀ l : List (String × α), l.any (fun p => p.1 = k) = true →
      List.find? (fun p => decide (p.1 = k)) (l.map (fun p => if p.1 = k then (k, v) else p)) =
        some (k, v) := by
  intro l
  induction l with
  | nil => intro h; simp at h
  | cons a t ih =>
      intro h
      simp only [List.map_cons, List.find?_cons]
      by_cases ha : a.1 = k
      · simp [if_pos ha]
      · have h2 : (decide (a.1 = k) || t.any fun p => decide (p.1 = k)) = true := by
          simpa only [List.any_cons] using h
        have ht : t.any (fun p => decide (p.1 = k)) = true := by
          rcases Bool.or_eq_true_iff.mp h2 with h1 | h1
          · exact absurd (of_decide_eq_true h1) ha
          · exact h1
        have e2 : (decide (a.1 = k)) = false := by simp [ha]
        simp only [if_neg ha, e2, ih ht]

theorem alistGet_alistSet_self {α : Type} (l : List (String × α)) (k : String) (v : α) :
    alistGet (alistSet l k v) k = some v := by
  unfold alistSet
  split
  · unfold alistGet
    rw [find?_setmap_self k v l (by assumption)]
    rfl
  · rename_i h
    have hn : List.find? (fun p => decide (p.1 = k)) l = none := by
      rw [List.find?_eq_none]
      intro a ha
      simp only [decide_eq_true_eq]
      intro hk
      exact h (List.any_eq_true.mpr ⟨a, ha, by simp [hk]⟩)
    simp [alistGet, List.find?_append, hn, List.find?]

/-- Every vip resource key ends in the letter of `_vip`, so it never collides
with a key whose last letter differs. -/
theorem vipKey_ne (i k0 : String) (h : k0.data.getLast? ≠ some 'p') : vipKey i ≠ k0 := by
  intro he
  apply h
  rw [← he]
  unfold vipKey
  simp only [String.data_append]
  rw [List.getLast?_append_of_ne_nil]
  · rfl
  · simp

theorem resKeyFor_last (r : String) : (resKeyFor r).data.getLast? ≠ some 'p' := by
  cases hg : geLiberty r <;> simp only [resKeyFor, hg] <;> decide

theorem haproxyKey_last : ("res_ceilometer_haproxy" : String).data.getLast? ≠ some 'p' := by
  decide

/-- One vip-loop step never touches the entry of a key that cannot be a vip
key. -/
theorem vipStep_get_ne (env : HAEnv) (k0 : String) (h : k0.data.getLast? ≠ some 'p')
    (acc : List (String × String) × List (String × String) × List String) (v : String) :
    alistGet (vipStep env acc v).1 k0 = alistGet acc.1 k0 ∧
    alistGet (vipStep env acc v).2.1 k0 = alistGet acc.2.1 k0 := by
  unfold vipStep
  cases env.ifaceForAddress v with
  | none => exact ⟨rfl, rfl⟩
  | some i =>
      exact ⟨alistGet_alistSet_ne _ _ _ _ (vipKey_ne i k0 h),
             alistGet_alistSet_ne _ _ _ _ (vipKey_ne i k0 h)⟩

/-- The whole vip loop never touches the entry of a key that cannot be a vip
key. -/
theorem foldl_vipStep_get_ne (env : HAEnv) (k0 : String) (h : k0.data.getLast? ≠ some 'p') :
    ∀ (l : List String) (acc : List (String × String) × List (String × String) × List String),
      alistGet (l.foldl (vipStep env) acc).1 k0 = alistGet acc.1 k0 ∧
      alistGet (l.foldl (vipStep env) acc).2.1 k0 = alistGet acc.2.1 k0 := by
  intro l
  induction l with
  | nil => intro acc; exact ⟨rfl, rfl⟩
  | cons a t ih =>
      intro acc
      have h1 := vipStep_get_ne env k0 h acc a
      have h2 := ih (vipStep env acc a)
      exact ⟨h2.1.trans h1.1, h2.2.trans h1.2⟩

/-- When no virtual IP resolves to a local interface, every loop step is the
identity. -/
theorem foldl_vipStep_id (env : HAEnv) :
    ∀ (l : List String), (∀ v ∈ l, env.ifaceForAddress v = none) →
      ∀ acc, l.foldl (vipStep env) acc = acc := by
  intro l
  induction l with
  | nil => intro _ acc; rfl
  | cons a t ih =>
      intro h acc
      have ha : vipStep env acc a = acc := by
        unfold vipStep
        rw [h a (List.mem_cons_self a t)]
      rw [List.foldl_cons, ha]
      exact ih (fun v hv => h v (List.mem_cons_of_mem a hv)) acc

/-- Lookup of the service resource key in the initial `resources` dict. -/
theorem alistGet_baseResources_resKey (r : String) :
    alistGet (baseResources r) (resKeyFor r) = some ("ocf:openstack:" ++ ocfNameFor r) := by
  cases hg : geLiberty r <;> simp only [baseResources, resKeyFor, ocfNameFor, hg] <;> decide

/-- Lookup of the service resource key in the initial `resource_params`
dict. -/
theorem alistGet_baseResourceParams_resKey (r : String) :
    alistGet (baseResourceParams r) (resKeyFor r) = some "op monitor interval=\"30s\"" := by
  cases hg : geLiberty r <;> simp only [baseResourceParams, resKeyFor, hg] <;> decide

/-- Lookup of the service resource key after the amqp override. -/
theorem alistGet_paramsAfterAmqp_resKey (env : HAEnv) :
    alistGet (paramsAfterAmqp env) (resKeyFor env.release) =
      (match lastSslPort env with
       | some p =>
           if p ≠ "" then
             some ("params amqp_server_port=\"" ++ p ++ "\" op monitor interval=\"30s\"")
           else some "op monitor interval=\"30s\""
       | none => some "op monitor interval=\"30s\"") := by
  unfold paramsAfterAmqp
  cases hs : lastSslPort env with
  | none => exact alistGet_baseResourceParams_resKey env.release
  | some p =>
      by_cases hp : p ≠ ""
      · simp only [if_pos hp]
        exact alistGet_alistSet_self _ _ _
      · simp only [if_neg hp]
        exact alistGet_baseResourceParams_resKey env.release

/-! ## Claim theorems -/

/-- C1 (counterexample): when a registered handler raises an exception other
than `UnregisteredHookError`, the `__main__` block propagates it immediately:
the process exits non-zero but `assess_status` is never reached, contrary to
the claim that the Status Reporter still executes. -/
theorem C1_cx_handler_exn_skips_assess_status :
    Effect.assessStatusEff ∉ (mainBlock (ExecResult.handlerExn (Exn.other "boom"))).1 ∧
    exitCode (ExecResult.handlerExn (Exn.other "boom")) ≠ 0 := by
  decide

/-- C1 (amended): `assess_status` executes exactly when no exception escapes
the `try` block (a successful handler or an unknown hook); an unhandled
exception from a registered handler propagates as a non-zero exit with
`assess_status` never executed. -/
theorem C1_assess_status_only_without_exn (r : ExecResult) :
    (Effect.assessStatusEff ∈ (mainBlock r).1 ↔ (mainBlock r).2 = none) ∧
    (∀ e : Exn, r = ExecResult.handlerExn e →
      mainBlock r = ([], some e) ∧ exitCode r = 1 ∧
        Effect.assessStatusEff ∉ (mainBlock r).1) := by
  cases r <;> simp [mainBlock, exitCode]

/-- C1 (witness): the amended statement evaluated on a concrete handler
exception. -/
theorem C1_assess_status_only_without_exn_witness :
    mainBlock (ExecResult.handlerExn (Exn.other "boom")) = ([], some (Exn.other "boom")) ∧
    exitCode (ExecResult.handlerExn (Exn.other "boom")) = 1 ∧
    Effect.assessStatusEff ∉ (mainBlock (ExecResult.handlerExn (Exn.other "boom"))).1 :=
  (C1_assess_status_only_without_exn (ExecResult.handlerExn (Exn.other "boom"))).2
    (Exn.other "boom") rfl

/-- Concrete `configure_https` environment in which both the apache reload
and the fallback restart exit non-zero. -/
def httpsEnvC3 : HttpsEnv :=
  { completeContexts := ["https"],
    paused := false,
    cmdFails := fun c => c == apacheReloadCmd || c == apacheRestartCmd }

/-- C3 (counterexample): with both the graceful reload and the fallback
restart failing, `configure_https` still returns without an exception — the
fallback goes through `subprocess.call`, whose non-zero exit status is
discarded, so its failure does not propagate as the claim states. -/
theorem C3_cx_failed_restart_does_not_propagate :
    httpsEnvC3.cmdFails apacheRestartCmd = true ∧
    Effect.call apacheRestartCmd ∈ (configure_https httpsEnvC3).1 ∧
    (configure_https httpsEnvC3).2 = none := by
  decide

/-- C3 (amended): when the unit is not paused and the site toggle succeeded,
the graceful reload is attempted first, the harder restart is issued exactly
when the reload fails, and no failure of the fallback restart propagates (the
handler finishes without an exception either way). -/
theorem C3_reload_first_restart_fallback (env : HttpsEnv)
    (hp : env.paused = false)
    (ht : env.cmdFails (if "https" ∈ env.completeContexts then a2ensiteCmd else a2dissiteCmd)
      = false) :
    (configure_https env).1 =
      [Effect.writeAll,
       Effect.checkCall (if "https" ∈ env.completeContexts then a2ensiteCmd else a2dissiteCmd),
       Effect.checkCall apacheReloadCmd]
      ++ (if env.cmdFails apacheReloadCmd then [Effect.call apacheRestartCmd] else []) ∧
    (configure_https env).2 = none := by
  by_cases hr : env.cmdFails apacheReloadCmd = true <;>
    simp [configure_https, ht, hp, hr]

/-- C3 (witness): the amended statement evaluated on the concrete failing
environment. -/
theorem C3_reload_first_restart_fallback_witness :
    httpsEnvC3.paused = false ∧
    httpsEnvC3.cmdFails
      (if "https" ∈ httpsEnvC3.completeContexts then a2ensiteCmd else a2dissiteCmd) = false ∧
    ((configure_https httpsEnvC3).1 =
      [Effect.writeAll,
       Effect.checkCall
         (if "https" ∈ httpsEnvC3.completeContexts then a2ensiteCmd else a2dissiteCmd),
       Effect.checkCall apacheReloadCmd]
      ++ (if httpsEnvC3.cmdFails apacheReloadCmd then [Effect.call apacheRestartCmd] else []) ∧
     (configure_https httpsEnvC3).2 = none) :=
  ⟨by decide, by decide, C3_reload_first_restart_fallback httpsEnvC3 (by decide) (by decide)⟩

/-- C7: on every call of `configure_https`, the https frontend site is
enabled through `a2ensite` exactly when the fragment `https` is in the
freshly read `complete_contexts()`, and disabled through `a2dissite` exactly
otherwise; the check is a function of the current completeness set alone,
never of a cached value. -/
theorem C7_https_toggle_fresh (env : HttpsEnv) :
    (Effect.checkCall a2ensiteCmd ∈ (configure_https env).1 ↔
      "https" ∈ env.completeContexts) ∧
    (Effect.checkCall a2dissiteCmd ∈ (configure_https env).1 ↔
      "https" ∉ env.completeContexts) := by
  by_cases hc : "https" ∈ env.completeContexts <;>
    simp only [configure_https, hc, if_true, if_false, ite_true, ite_false] <;>
    split_ifs <;>
    simp_all [a2ensiteCmd, a2dissiteCmd, apacheReloadCmd, apacheRestartCmd]

/-- C8: on `amqp-relation-departed` with the `amqp` context incomplete, the
handler emits exactly one log line and returns early: `CONFIGS.write_all` is
never called, nothing is raised, and no retry happens inside the handler. -/
theorem C8_amqp_departed_early_return (completeContexts : List String)
    (h : "amqp" ∉ completeContexts) :
    amqp_departed completeContexts =
      [Effect.log "amqp relation incomplete. Peer not ready?"] ∧
    Effect.writeAll ∉ amqp_departed completeContexts := by
  unfold amqp_departed
  rw [if_pos h]
  exact ⟨rfl, by decide⟩

/-- C8 (witness): the statement evaluated with no complete contexts. -/
theorem C8_amqp_departed_early_return_witness :
    ("amqp" ∉ ([] : List String)) ∧
    (amqp_departed [] = [Effect.log "amqp relation incomplete. Peer not ready?"] ∧
     Effect.writeAll ∉ amqp_departed []) :=
  ⟨by decide, C8_amqp_departed_early_return [] (by decide)⟩

/-- C4: (follower convergence) after a `cluster-relation-changed` or
`-departed` event in which the peer-stored secret is non-blank and differs
from the local copy, the local copy equals the peer-stored value; (leader
stability) a leader publishing on `cluster-relation-joined` stores its own
secret, so a second join publishes exactly the value already published, never
a different one. -/
theorem C4_shared_secret_convergence :
    (∀ (v fresh : String) (s : SecretState), pyStrip v ≠ "" →
      s.localSecret ≠ some v →
      (cluster_changed (some v) fresh s).1.localSecret = some v) ∧
    (∀ (env : ClusterEnv) (f1 f2 : String) (s : SecretState) (p : Option String),
      env.isLeader = true →
      (cluster_joined env f2 (cluster_joined env f1 s p).1
          (cluster_joined env f1 s p).2.1).2.1 = (cluster_joined env f1 s p).2.1) := by
  constructor
  · intro v fresh s hv _
    cases s with
    | mk ls =>
        cases ls with
        | none =>
            by_cases hvf : v = fresh
            · subst hvf
              simp [cluster_changed, get_shared_secret, set_shared_secret, hv]
            · simp [cluster_changed, get_shared_secret, set_shared_secret, hv, hvf]
        | some w =>
            by_cases hvw : v = w
            · subst hvw
              simp [cluster_changed, get_shared_secret, set_shared_secret, hv]
            · simp [cluster_changed, get_shared_secret, set_shared_secret, hv, hvw]
  · intro env f1 f2 s p hl
    cases s with
    | mk ls =>
        cases ls with
        | none => simp [cluster_joined, hl, get_shared_secret]
        | some w => simp [cluster_joined, hl, get_shared_secret]

/-- Concrete leader environment for the C4 witness. -/
def clusterEnvC4 : ClusterEnv :=
  { isLeader := true, addressOf := fun _ => none, clusterIp := "10.0.0.1" }

/-- C4 (witness): a follower with local secret `"old"` converges to the
peer value `"new"`, and a leader that already stored `"sek"` republishes
the same value on a second join. -/
theorem C4_shared_secret_convergence_witness :
    (pyStrip "new" ≠ "" ∧ (SecretState.mk (some "old")).localSecret ≠ some "new" ∧
      (cluster_changed (some "new") "g" (SecretState.mk (some "old"))).1.localSecret
        = some "new") ∧
    (clusterEnvC4.isLeader = true ∧
      (cluster_joined clusterEnvC4 "g2"
          (cluster_joined clusterEnvC4 "g1" (SecretState.mk (some "sek")) none).1
          (cluster_joined clusterEnvC4 "g1" (SecretState.mk (some "sek")) none).2.1).2.1 =
        (cluster_joined clusterEnvC4 "g1" (SecretState.mk (some "sek")) none).2.1) :=
  ⟨⟨by decide, by decide,
      C4_shared_secret_convergence.1 "new" "g" (SecretState.mk (some "old"))
        (by decide) (by decide)⟩,
   ⟨rfl,
      C4_shared_secret_convergence.2 clusterEnvC4 "g1" "g2"
        (SecretState.mk (some "sek")) none rfl⟩⟩

/-- Concrete `ha_joined` environment: mitaka release, non-DNS-HA, one
resolvable virtual IP, no amqp ssl port. -/
def haEnvC2 : HAEnv :=
  { release := "mitaka", dnsHa := false, vip := "10.0.0.10 10.0.0.11",
    haBindiface := "eth0", haMcastport := "5959",
    ifaceForAddress := fun v => if v = "10.0.0.10" then some "eth0" else none,
    netmaskForAddress := fun _ => some "255.255.255.0",
    amqpRelIds := [], relatedUnits := fun _ => [], sslPortOf := fun _ _ => none,
    dnsTransform := fun a b => (a, b) }

/-- C2 (counterexample): on a concrete `ha-relation-joined` dispatch with a
resolvable virtual IP, no single `relation_set` write carries the resource,
parameter and deletion maps together with the virtual-IP group: the group
goes out in its own separate write, so the claimed single atomic write does
not happen. -/
theorem C2_cx_groups_in_separate_write :
    oneWriteHasAll (ha_joined haEnvC2)
      ["resources", "resource_params", "delete_resources", "groups",
       "init_services", "corosync_bindiface", "corosync_mcastport"] = false ∧
    (ha_joined haEnvC2).any (fun e => settingsHasKey e "groups") = true ∧
    oneWriteHasAll (ha_joined haEnvC2)
      ["resources", "resource_params", "delete_resources",
       "init_services", "corosync_bindiface", "corosync_mcastport"] = true := by
  decide

/-- C2 (amended): every `ha-relation-joined` dispatch ends with one single
`relation_set` write carrying the full resource map, resource-parameter map,
deletion list, init-services name, corosync bindiface and mcastport (and the
clone map) together; the virtual-IP group is not part of that write — it is
published (in non-DNS-HA mode) in a separate, earlier `relation_set`,
present exactly when at least one virtual IP resolved; in DNS-HA mode group
publication is delegated to the external DNS-HA parameter builder. -/
theorem C2_amended_group_separate (env : HAEnv) :
    (ha_joined env).getLast? = some (Effect.relationSet (finalSettings env)) ∧
    oneWriteHasAll (ha_joined env)
      ["init_services", "corosync_bindiface", "corosync_mcastport", "resources",
       "resource_params", "delete_resources", "clones"] = true ∧
    settingsHasKey (Effect.relationSet (finalSettings env)) "groups" = false ∧
    (env.dnsHa = false →
      ((ha_joined env).any (fun e => settingsHasKey e "groups") = true ↔
        1 ≤ (vipLoop env).2.2.length)) := by
  have hall : settingsHasKey (Effect.relationSet (finalSettings env)) "init_services" = true ∧
      settingsHasKey (Effect.relationSet (finalSettings env)) "corosync_bindiface" = true ∧
      settingsHasKey (Effect.relationSet (finalSettings env)) "corosync_mcastport" = true ∧
      settingsHasKey (Effect.relationSet (finalSettings env)) "resources" = true ∧
      settingsHasKey (Effect.relationSet (finalSettings env)) "resource_params" = true ∧
      settingsHasKey (Effect.relationSet (finalSettings env)) "delete_resources" = true ∧
      settingsHasKey (Effect.relationSet (finalSettings env)) "clones" = true := by
    refine ⟨?_, ?_, ?_, ?_, ?_, ?_, ?_⟩ <;> simp [settingsHasKey, finalSettings]
  have hng : settingsHasKey (Effect.relationSet (finalSettings env)) "groups" = false := by
    simp [settingsHasKey, finalSettings]
  cases hd : env.dnsHa
  · by_cases hg : 1 ≤ (vipLoop env).2.2.length
    · refine ⟨?_, ?_, hng, ?_⟩
      · simp [ha_joined, hd, hg]
      · simp only [ha_joined, hd, hg, oneWriteHasAll]
        simp
        exact Or.inr hall
      · intro _
        simp only [ha_joined, hd, hg]
        simp [groupsEffect, settingsHasKey, hg]
    · refine ⟨?_, ?_, hng, ?_⟩
      · simp [ha_joined, hd, hg]
      · simp only [ha_joined, hd, hg, oneWriteHasAll]
        simp
        exact hall
      · intro _
        simp only [ha_joined, hd, hg]
        simp [hng, hg]
  · refine ⟨?_, ?_, hng, ?_⟩
    · simp [ha_joined, hd]
    · simp only [ha_joined, hd, oneWriteHasAll]
      simp
      exact hall
    · intro hc
      exact absurd hc (by decide)

/-- C2 (witness): the amended statement evaluated on the concrete
environment with one resolvable vip. -/
theorem C2_amended_group_separate_witness :
    (ha_joined haEnvC2).getLast? = some (Effect.relationSet (finalSettings haEnvC2)) ∧
    oneWriteHasAll (ha_joined haEnvC2)
      ["init_services", "corosync_bindiface", "corosync_mcastport", "resources",
       "resource_params", "delete_resources", "clones"] = true ∧
    settingsHasKey (Effect.relationSet (finalSettings haEnvC2)) "groups" = false ∧
    (haEnvC2.dnsHa = false →
      ((ha_joined haEnvC2).any (fun e => settingsHasKey e "groups") = true ↔
        1 ≤ (vipLoop haEnvC2).2.2.length)) :=
  C2_amended_group_separate haEnvC2

/-- C5: below liberty the service resource is published under the legacy key
`res_ceilometer_agent_central` and the published deletion list is empty; from
liberty on it is published under `res_ceilometer_polling` and the legacy key
appears in the published deletion list. -/
theorem C5_generation_resource_key (env : HAEnv) (hd : env.dnsHa = false) :
    (geLiberty env.release = false →
      deleteResourcesFor env.release = [] ∧
      resKeyFor env.release = LEGACY_RES_KEY ∧
      alistGet (finalMaps env).1 LEGACY_RES_KEY
        = some "ocf:openstack:ceilometer-agent-central" ∧
      alistGet (finalMaps env).1 NEW_RES_KEY = none) ∧
    (geLiberty env.release = true →
      deleteResourcesFor env.release = [LEGACY_RES_KEY] ∧
      resKeyFor env.release = NEW_RES_KEY ∧
      alistGet (finalMaps env).1 NEW_RES_KEY
        = some "ocf:openstack:ceilometer-polling" ∧
      LEGACY_RES_KEY ∈ deleteResourcesFor env.release) ∧
    alistGet (finalSettings env) "delete_resources"
      = some (RVal.list (deleteResourcesFor env.release)) := by
  have hleg := (foldl_vipStep_get_ne env LEGACY_RES_KEY (by decide) (splitVips env)
      (baseResources env.release, paramsAfterAmqp env, [])).1
  have hnew := (foldl_vipStep_get_ne env NEW_RES_KEY (by decide) (splitVips env)
      (baseResources env.release, paramsAfterAmqp env, [])).1
  have hvl : (splitVips env).foldl (vipStep env)
      (baseResources env.release, paramsAfterAmqp env, []) = vipLoop env := rfl
  rw [hvl] at hleg hnew
  have hfm : (finalMaps env).1 = (vipLoop env).1 := by simp [finalMaps, hd]
  refine ⟨?_, ?_, ?_⟩
  · intro hg
    refine ⟨by simp [deleteResourcesFor, hg], by simp [resKeyFor, hg], ?_, ?_⟩
    · rw [hfm, hleg]
      simp only [baseResources, resKeyFor, ocfNameFor, hg]
      decide
    · rw [hfm, hnew]
      simp only [baseResources, resKeyFor, ocfNameFor, hg]
      decide
  · intro hg
    refine ⟨by simp [deleteResourcesFor, hg], by simp [resKeyFor, hg], ?_, ?_⟩
    · rw [hfm, hnew]
      simp only [baseResources, resKeyFor, ocfNameFor, hg]
      decide
    · simp [deleteResourcesFor, hg]
  · simp [finalSettings, alistGet, List.find?]

/-- Concrete pre-liberty `ha_joined` environment for the C5 witness. -/
def haEnvC5 : HAEnv :=
  { release := "kilo", dnsHa := false, vip := "10.0.0.10",
    haBindiface := "eth0", haMcastport := "5959",
    ifaceForAddress := fun _ => none, netmaskForAddress := fun _ => none,
    amqpRelIds := [], relatedUnits := fun _ => [], sslPortOf := fun _ _ => none,
    dnsTransform := fun a b => (a, b) }

/-- C5 (witness): the statement evaluated on a kilo-release environment. -/
theorem C5_generation_resource_key_witness :
    haEnvC5.dnsHa = false ∧
    ((geLiberty haEnvC5.release = false →
      deleteResourcesFor haEnvC5.release = [] ∧
      resKeyFor haEnvC5.release = LEGACY_RES_KEY ∧
      alistGet (finalMaps haEnvC5).1 LEGACY_RES_KEY
        = some "ocf:openstack:ceilometer-agent-central" ∧
      alistGet (finalMaps haEnvC5).1 NEW_RES_KEY = none) ∧
    (geLiberty haEnvC5.release = true →
      deleteResourcesFor haEnvC5.release = [LEGACY_RES_KEY] ∧
      resKeyFor haEnvC5.release = NEW_RES_KEY ∧
      alistGet (finalMaps haEnvC5).1 NEW_RES_KEY
        = some "ocf:openstack:ceilometer-polling" ∧
      LEGACY_RES_KEY ∈ deleteResourcesFor haEnvC5.release) ∧
    alistGet (finalSettings haEnvC5) "delete_resources"
      = some (RVal.list (deleteResourcesFor haEnvC5.release))) :=
  ⟨by decide, C5_generation_resource_key haEnvC5 (by decide)⟩

/-- C9: the amqp ssl-port override uses the value read from the last amqp
unit enumerated: when that last read is `None` or blank (`truthy` false), the
published service-resource parameters stay at the plain monitor string — even
if an earlier unit advertised a port — and when the last read is a non-empty
port `p`, the published parameters embed exactly `p`. -/
theorem C9_last_amqp_unit_ssl_port (env : HAEnv) (hd : env.dnsHa = false) :
    (truthy (lastSslPort env) = false →
      alistGet (finalMaps env).2 (resKeyFor env.release)
        = some "op monitor interval=\"30s\"") ∧
    (∀ p : String, lastSslPort env = some p → p ≠ "" →
      alistGet (finalMaps env).2 (resKeyFor env.release) =
        some ("params amqp_server_port=\"" ++ p ++ "\" op monitor interval=\"30s\"")) := by
  have hpr := (foldl_vipStep_get_ne env (resKeyFor env.release) (resKeyFor_last env.release)
      (splitVips env) (baseResources env.release, paramsAfterAmqp env, [])).2
  have hvl : (splitVips env).foldl (vipStep env)
      (baseResources env.release, paramsAfterAmqp env, []) = vipLoop env := rfl
  rw [hvl] at hpr
  have hfm : (finalMaps env).2 = (vipLoop env).2.1 := by simp [finalMaps, hd]
  have hkey := alistGet_paramsAfterAmqp_resKey env
  constructor
  · intro ht
    rw [hfm, hpr, hkey]
    cases hs : lastSslPort env with
    | none => rfl
    | some p =>
        rw [hs] at ht
        have hpe : ¬ p ≠ "" := by
          intro hp
          simp [truthy, hp] at ht
        simp [hpe]
  · intro p hp hne
    rw [hfm, hpr, hkey, hp]
    simp [hne]

/-- Concrete `ha_joined` environment for the C9 witness: the first amqp unit
advertises an ssl port, the last one does not. -/
def haEnvC9 : HAEnv :=
  { release := "mitaka", dnsHa := false, vip := "10.0.0.10",
    haBindiface := "eth0", haMcastport := "5959",
    ifaceForAddress := fun _ => none, netmaskForAddress := fun _ => none,
    amqpRelIds := ["amqp:0"],
    relatedUnits := fun _ => ["rabbitmq/0", "rabbitmq/1"],
    sslPortOf := fun _ u => if u = "rabbitmq/0" then some "5671" else none,
    dnsTransform := fun a b => (a, b) }

/-- C9 (witness): the earlier unit advertises `5671` but the last read is
`None`, so no override reaches the published parameters. -/
theorem C9_last_amqp_unit_ssl_port_witness :
    haEnvC9.dnsHa = false ∧
    haEnvC9.sslPortOf "amqp:0" "rabbitmq/0" = some "5671" ∧
    lastSslPort haEnvC9 = none ∧
    truthy (lastSslPort haEnvC9) = false ∧
    alistGet (finalMaps haEnvC9).2 (resKeyFor haEnvC9.release)
      = some "op monitor interval=\"30s\"" :=
  ⟨by decide, by decide, by decide, by decide,
    (C9_last_amqp_unit_ssl_port haEnvC9 (by decide)).1 (by decide)⟩

theorem base_no_vipKey (r i : String) :
    (baseResources r).any (fun p => p.1 = vipKey i) = false := by
  have h1 : ¬ (("res_ceilometer_haproxy" : String) = vipKey i) :=
    fun h => (vipKey_ne i _ haproxyKey_last) h.symm
  have h2 : ¬ (resKeyFor r = vipKey i) :=
    fun h => (vipKey_ne i _ (resKeyFor_last r)) h.symm
  simp [baseResources, h1, h2]

theorem base_values_not_ipaddr (r : String) :
    ∀ p ∈ baseResources r, p.2 ≠ "ocf:heartbeat:IPaddr2" := by
  cases hg : geLiberty r <;>
    simp only [baseResources, resKeyFor, ocfNameFor, hg] <;> decide

/-- Adding a fresh key whose value does not occur in `l` makes that key the
single entry with this value. -/
theorem filter_value_alistSet (l : List (String × String)) (k v : String)
    (hk : l.any (fun p => p.1 = k) = false) (hv : ∀ p ∈ l, p.2 ≠ v) :
    ((alistSet l k v).filter (fun p => p.2 = v)).map Prod.fst = [k] := by
  have he : alistSet l k v = l ++ [(k, v)] := by simp [alistSet, hk]
  rw [he, List.filter_append]
  have hf : l.filter (fun p => decide (p.2 = v)) = [] := by
    rw [List.filter_eq_nil_iff]
    intro a ha
    simp [hv a ha]
  rw [hf]
  simp

/-- C6: with two configured virtual IPs of which exactly one resolves to the
local interface `i`, the published resource map carries exactly one IPaddr2
resource — keyed for `i` — the group is exactly that key, and the handler
finishes normally with its two relation writes (the unresolvable vip is
skipped without an error). -/
theorem C6_single_resolvable_vip (env : HAEnv) (v1 v2 i : String)
    (hd : env.dnsHa = false)
    (hs : splitVips env = [v1, v2])
    (hone : (env.ifaceForAddress v1 = some i ∧ env.ifaceForAddress v2 = none) ∨
            (env.ifaceForAddress v1 = none ∧ env.ifaceForAddress v2 = some i)) :
    ((finalMaps env).1.filter (fun p => p.2 = "ocf:heartbeat:IPaddr2")).map Prod.fst
      = [vipKey i] ∧
    (vipLoop env).2.2 = [vipKey i] ∧
    groupsEffect env =
      Effect.relationSet [("groups", RVal.dict [("grp_ceilometer_vips", vipKey i)])] ∧
    ha_joined env = [groupsEffect env, Effect.relationSet (finalSettings env)] := by
  have hfm : (finalMaps env).1 = (vipLoop env).1 := by simp [finalMaps, hd]
  obtain ⟨hv1, hv2⟩ | ⟨hv1, hv2⟩ := hone
  all_goals {
    have hvl1 : (vipLoop env).1
        = alistSet (baseResources env.release) (vipKey i) "ocf:heartbeat:IPaddr2" := by
      simp [vipLoop, hs, vipStep, hv1, hv2]
    have hvg : (vipLoop env).2.2 = [vipKey i] := by
      simp [vipLoop, hs, vipStep, hv1, hv2]
    refine ⟨?_, hvg, ?_, ?_⟩
    · rw [hfm, hvl1]
      exact filter_value_alistSet _ _ _ (base_no_vipKey env.release i)
        (base_values_not_ipaddr env.release)
    · simp [groupsEffect, hvg, joinSpace, String.intercalate, String.intercalate.go]
    · simp [ha_joined, hd, hvg]
  }

/-- Concrete `ha_joined` environment for the C6 witness: of the two
configured virtual IPs only `10.0.0.10` resolves, to `eth0`. -/
def haEnvC6 : HAEnv :=
  { release := "mitaka", dnsHa := false, vip := "10.0.0.10 10.0.0.11",
    haBindiface := "eth0", haMcastport := "5959",
    ifaceForAddress := fun v => if v = "10.0.0.10" then some "eth0" else none,
    netmaskForAddress := fun _ => some "255.255.255.0",
    amqpRelIds := [], relatedUnits := fun _ => [], sslPortOf := fun _ _ => none,
    dnsTransform := fun a b => (a, b) }

/-- C6 (witness): the statement evaluated on the concrete two-vip
environment. -/
theorem C6_single_resolvable_vip_witness :
    haEnvC6.dnsHa = false ∧
    splitVips haEnvC6 = ["10.0.0.10", "10.0.0.11"] ∧
    haEnvC6.ifaceForAddress "10.0.0.10" = some "eth0" ∧
    haEnvC6.ifaceForAddress "10.0.0.11" = none ∧
    (((finalMaps haEnvC6).1.filter (fun p => p.2 = "ocf:heartbeat:IPaddr2")).map Prod.fst
      = [vipKey "eth0"] ∧
     (vipLoop haEnvC6).2.2 = [vipKey "eth0"] ∧
     groupsEffect haEnvC6 =
       Effect.relationSet [("groups", RVal.dict [("grp_ceilometer_vips", vipKey "eth0")])] ∧
     ha_joined haEnvC6 = [groupsEffect haEnvC6, Effect.relationSet (finalSettings haEnvC6)]) :=
  ⟨by decide, by decide, by decide, by decide,
    C6_single_resolvable_vip haEnvC6 "10.0.0.10" "10.0.0.11" "eth0" (by decide) (by decide)
      (Or.inl ⟨by decide, by decide⟩)⟩

/-- Replaying a settings list that never carries the key `k0` leaves the
store's value at `k0` unchanged. -/
theorem foldl_alistSet_get_ne {α : Type} (k0 : String) :
    ∀ (settings : List (String × α)) (store : List (String × α)),
      (∀ p ∈ settings, p.1 ≠ k0) →
      alistGet (settings.foldl (fun st kv => alistSet st kv.1 kv.2) store) k0
        = alistGet store k0 := by
  intro settings
  induction settings with
  | nil => intro store _; rfl
  | cons a t ih =>
      intro store h
      rw [List.foldl_cons]
      rw [ih (alistSet store a.1 a.2) (fun p hp => h p (List.mem_cons_of_mem a hp))]
      exact alistGet_alistSet_ne store a.1 a.2 k0 (h a (List.mem_cons_self a t))

theorem finalSettings_no_groups_key (env : HAEnv) :
    ∀ p ∈ finalSettings env, p.1 ≠ "groups" := by
  intro p hp
  simp only [finalSettings, List.mem_cons, List.not_mem_nil, or_false] at hp
  rcases hp with h | h | h | h | h | h | h <;> subst h <;> simp

/-- C10: when no configured virtual IP resolves to a local interface (and
DNS-HA is off), `ha_joined` performs only the final `relation_set`, no write
carries a `groups` key, and a previously published `groups` value on the
relation is left exactly as it was. -/
theorem C10_no_vip_leaves_groups_alone (env : HAEnv) (store : List (String × RVal))
    (hd : env.dnsHa = false)
    (hnone : ∀ v ∈ splitVips env, env.ifaceForAddress v = none) :
    ha_joined env = [Effect.relationSet (finalSettings env)] ∧
    (ha_joined env).any (fun e => settingsHasKey e "groups") = false ∧
    alistGet (applyTrace store (ha_joined env)) "groups" = alistGet store "groups" := by
  have hloop : vipLoop env = (baseResources env.release, paramsAfterAmqp env, []) :=
    foldl_vipStep_id env (splitVips env) hnone _
  have htrace : ha_joined env = [Effect.relationSet (finalSettings env)] := by
    simp [ha_joined, hd, hloop]
  refine ⟨htrace, ?_, ?_⟩
  · rw [htrace]
    simp [settingsHasKey, finalSettings]
  · rw [htrace]
    simp only [applyTrace, List.foldl_cons, List.foldl_nil, applyEffect]
    exact foldl_alistSet_get_ne "groups" (finalSettings env) store
      (finalSettings_no_groups_key env)

/-- Concrete `ha_joined` environment for the C10 witness: no vip resolves. -/
def haEnvC10 : HAEnv :=
  { release := "mitaka", dnsHa := false, vip := "10.0.0.10 10.0.0.11",
    haBindiface := "eth0", haMcastport := "5959",
    ifaceForAddress := fun _ => none, netmaskForAddress := fun _ => none,
    amqpRelIds := [], relatedUnits := fun _ => [], sslPortOf := fun _ _ => none,
    dnsTransform := fun a b => (a, b) }

/-- A relation store holding a previously published group. -/
def storeC10 : List (String × RVal) :=
  [("groups", RVal.dict [("grp_ceilometer_vips", "res_ceilometer_eth0_vip")])]

/-- C10 (witness): the statement evaluated on the concrete no-vip-resolves
environment against a store with an old group value. -/
theorem C10_no_vip_leaves_groups_alone_witness :
    haEnvC10.dnsHa = false ∧
    (∀ v ∈ splitVips haEnvC10, haEnvC10.ifaceForAddress v = none) ∧
    (ha_joined haEnvC10 = [Effect.relationSet (finalSettings haEnvC10)] ∧
     (ha_joined haEnvC10).any (fun e => settingsHasKey e "groups") = false ∧
     alistGet (applyTrace storeC10 (ha_joined haEnvC10)) "groups"
       = alistGet storeC10 "groups") :=
  ⟨by decide, by decide,
    C10_no_vip_leaves_groups_alone haEnvC10 storeC10 (by decide) (by decide)⟩

end Ceilometer
